import Mathlib

/-!
Verification of the poodle-lex compilation core against its design notes.

The developments below are shallow embeddings of the Python sources:

* `PoodleLex.CAscii`  — the token-selection logic of
  `Plugins/C-Ascii/C-Ascii.py` (`CAsciiEmitter.generate_state_machine`);
* `PoodleLex.IR`      — the IR builder of
  `Generator/RulesFile/NonDeterministicIR.py`;
* `PoodleLex.Plugins` — the plugin-specification loader of
  `Generator/LanguagePlugins.py`.

Pure functions of the Python code become Lean functions; in-place mutation
is modelled by returning the updated value; raised exceptions become
`Except` errors carrying the message text.
-/

namespace PoodleLex

namespace CAscii

/-- Embedding of the Python builtin `min(xs, key=k)` on a non-empty
sequence: the leftmost element whose key is minimal (Python keeps the
current minimum unless a strictly smaller key appears). -/
def pyMinBy (key : α → Nat) : List α → Option α
  | [] => none
  | x :: xs => some (xs.foldl (fun acc y => if key y < key acc then y else acc) x)

/-- Embedding of `C-Ascii.py` lines 266-268: with
`tokens_by_priority = [rule.id for rule in self.lexical_analyzer.rules]`,
the emitter computes
`min(state.final_ids, key = lambda x: tokens_by_priority.index(x))`. -/
def selectToken (tokens_by_priority : List String) (final_ids : List String) :
    Option String :=
  pyMinBy (fun x => tokens_by_priority.indexOf x) final_ids

end CAscii

namespace IR

/-- Pattern node of the rules-file syntax tree: the regex source text plus
the case-insensitivity flag (`rule.pattern.regex`,
`rule.pattern.is_case_insensitive`). -/
structure Pattern where
  regex : String
  is_case_insensitive : Bool
  deriving DecidableEq, Repr

/-- Rule node of the rules-file syntax tree as consumed by
`NonDeterministicIR.Builder`: optional identifier, optional pattern, the
`rule_action` sequence of optional strings (`reserve` marks a reservation),
the optional `section_action` pair of an action keyword and an optional
target section name, the declaration line, and the marker used by
`section.all("future_import")` for imports left unresolved by validation. -/
structure ASTRule where
  id : Option String
  pattern : Option Pattern
  rule_action : List (Option String)
  section_action : Option (Option String × Option String)
  line_number : Nat
  future_import : Bool
  deriving DecidableEq, Repr

/-- Section node of the rules-file syntax tree: name, inherits flag, the
ordered rule declarations, and child sections. -/
inductive ASTSection : Type where
  | mk : String → Bool → List ASTRule → List ASTSection → ASTSection
  deriving Repr

def ASTSection.name : ASTSection → String
  | .mk n _ _ _ => n

def ASTSection.inherits : ASTSection → Bool
  | .mk _ i _ _ => i

def ASTSection.rules : ASTSection → List ASTRule
  | .mk _ _ rs _ => rs

def ASTSection.children : ASTSection → List ASTSection
  | .mk _ _ _ cs => cs

/-- Error raised through `rule.throw`. Modelled from the spec: the `throw`
method of syntax-tree nodes is not under src; per §7 every surfaced error
carries the offending rule declaration location, so the model pairs the
rule line number with the message text. Message texts follow the source
with the quote characters around interpolated names left out. -/
structure RuleError where
  line : Nat
  message : String
  deriving DecidableEq, Repr

/-- Embedding of Python `str.lower()` on the byte strings of Python 2:
ASCII letters are lowercased, every other character is unchanged. Written
out over the character list so that concrete runs reduce inside the
kernel (`String.toLower` does not). -/
def pyLowerChar (c : Char) : Char :=
  if c.toNat ≥ 65 ∧ c.toNat ≤ 90 then Char.ofNat (c.toNat + 32) else c

/-- Lowercasing of a whole identifier, Python `s.lower()`. -/
def pyLower (s : String) : String := ⟨s.data.map pyLowerChar⟩

/-- Test `"reserve" in rule.rule_action` from `visit_rule` (line 133). -/
def hasReserve (r : ASTRule) : Bool :=
  r.rule_action.contains (some "reserve")

/-- Modelled from the spec: `section.find("reservation", id)` of the syntax
tree is not under src. Per §4.4 reservations share the variable-lookup
scoping discipline: the lookup walks the section chain from the current
section to the root, scanning each section declarations in order, first
match wins. -/
def findReservation (chain : List ASTSection) (i : Option String) :
    Option ASTRule :=
  match chain with
  | [] => none
  | s :: rest =>
    match s.rules.find? (fun r => hasReserve r && r.id == i) with
    | some r => some r
    | none => findReservation rest i

/-- Embedding of the per-import body of the loop at
`NonDeterministicIR.py` lines 89-96: a missing reservation is fatal; any
rule marked as an unresolved inclusion without its own pattern inherits
the reservation pattern, fatally so when the reservation has none either; the pattern assignment
`rule.pattern = reservation[0].pattern` mutates the rule in place, which
the model renders by returning the updated rule. -/
def resolveImport (chain : List ASTSection) (r : ASTRule) :
    Except RuleError ASTRule :=
  if r.future_import then
    match findReservation chain r.id with
    | none => .error ⟨r.line_number, "reservation not found for imported rule"⟩
    | some res =>
      match r.pattern with
      | some _ => .ok r
      | none =>
        match res.pattern with
        | none => .error ⟨r.line_number,
            "pattern must be defined for imported rule if not defined by reservation rule"⟩
        | some p => .ok { r with pattern := some p }
  else .ok r

/-- Import-resolution pass of `visit_section` over a section rule list;
`chain` is the current section followed by its ancestors. -/
def resolveImports (chain : List ASTSection) :
    List ASTRule → Except RuleError (List ASTRule)
  | [] => .ok []
  | r :: rs => do
    let r' ← resolveImport chain r
    let rs' ← resolveImports chain rs
    .ok (r' :: rs')

/-- Rule record of the intermediate representation
(`NonDeterministicIR.Rule`, lines 45-61). The NFA type is a parameter: the
`Regex.Parser` and `Automata.NonDeterministicFiniteBuilder` modules are
not under src, so pattern compilation is abstracted as a function into an
arbitrary NFA type. -/
structure IRRule (NFA : Type) where
  id : Option String
  nfa : NFA
  action : List (Option String)
  section_action : Option (Option String × Option String)
  line_number : Nat
  deriving DecidableEq, Repr

/-- Section record of the intermediate representation
(`NonDeterministicIR.Section`, lines 35-43). -/
structure IRSection (NFA : Type) where
  rules : List (IRRule NFA)
  inherits : Bool
  parent : Option String
  deriving DecidableEq, Repr

/-- Membership test for a string key of a Python dict modelled as an
association list. -/
def containsKey (d : List (String × α)) (k : String) : Bool :=
  d.any (fun kv => kv.1 == k)

/-- Assignment `d[k] = v` on a Python dict modelled as an association
list: replaces the value of an existing key, appends otherwise. -/
def dictSet (d : List (String × α)) (k : String) (v : α) :
    List (String × α) :=
  if containsKey d k then d.map (fun kv => if kv.1 == k then (k, v) else kv)
  else d ++ [(k, v)]

/-- Builder state threaded through the traversal: the `sections`
dictionary keyed by qualified name and the `rule_ids` dictionary
(`Builder.__init__`, lines 81-85). -/
structure GState (NFA : Type) where
  sections : List (String × IRSection NFA)
  rule_ids : List (String × String)
  deriving DecidableEq, Repr

/-- Modelled from the spec: `SectionResolver.resolve(name, fromSection)`
is not under src. Per §4.4 a target name resolves relative to the current
section first (child lookup), then by walking upward through the
ancestors, and the resolver returns not-found (`none`) rather than
raising. The chain pairs each section with its qualified name, current
section first; the model covers plain (undotted) target names. -/
def sectionResolve (target : String) :
    List (String × ASTSection) → Option (String × ASTSection)
  | [] => none
  | (q, s) :: rest =>
    match s.children.find? (fun c => c.name == target) with
    | some c => some (q ++ "." ++ c.name, c)
    | none => sectionResolve target rest

/-- Embedding of the body of the `try` block of `visit_rule` for a
non-reservation rule (lines 134-147): fetch the pattern (a missing
pattern surfaces as the Python attribute error on `rule.pattern.regex`),
compile it (abstract; covers regex parsing, variable resolution and
Thompson construction), resolve the section-action target, lower the
rule action, and assemble the IR rule. -/
def compileRule {NFA : Type} (compile : Pattern → Except String NFA)
    (chain : List (String × ASTSection)) (r : ASTRule) :
    Except String (IRRule NFA) :=
  match r.pattern with
  | none => .error "rule has no pattern"
  | some p =>
    match compile p with
    | .error e => .error e
    | .ok nfa =>
      match r.section_action with
      | none => .ok ⟨r.id, nfa, r.rule_action.map (Option.map pyLower),
          none, r.line_number⟩
      | some (act, none) => .ok ⟨r.id, nfa,
          r.rule_action.map (Option.map pyLower), some (act, none),
          r.line_number⟩
      | some (act, some target) =>
        match sectionResolve target chain with
        | none => .error ("section " ++ target ++ " not found")
        | some (q, _) => .ok ⟨r.id, nfa,
            r.rule_action.map (Option.map pyLower),
            some (act, some q), r.line_number⟩

/-- Message formatting of the `except` clause of `visit_rule`
(lines 152-156): the failure names the rule identifier when present and
states that the rule is anonymous otherwise. -/
def fmtRuleFailure (i : Option String) (msg : String) : String :=
  match i with
  | none => "anonymous rule: " ++ msg
  | some n => "rule " ++ n ++ ": " ++ msg

/-- Update of the `rule_ids` dictionary (lines 149-150):
`if rule.id is not None and rule_id_lower not in self.rule_ids:
self.rule_ids[rule.id] = rule.id`. -/
def updateRuleIds (ids : List (String × String)) (i : Option String) :
    List (String × String) :=
  match i with
  | none => ids
  | some n => if containsKey ids (pyLower n) then ids else dictSet ids n n

/-- Embedding of `visit_rule` (lines 112-156). The state is the rule list
of the current IR section paired with the global `rule_ids` dictionary. A
rule whose `rule_action` holds `reserve` is skipped entirely; otherwise a
successful compilation appends exactly one IR rule, and a failure is
re-raised through `rule.throw` with the named/anonymous prefix. -/
def visitRule {NFA : Type} (compile : Pattern → Except String NFA)
    (chain : List (String × ASTSection))
    (st : List (IRRule NFA) × List (String × String)) (r : ASTRule) :
    Except RuleError (List (IRRule NFA) × List (String × String)) :=
  if hasReserve r then .ok st
  else
    match compileRule compile chain r with
    | .error msg => .error ⟨r.line_number, fmtRuleFailure r.id msg⟩
    | .ok ir => .ok (st.1 ++ [ir], updateRuleIds st.2 r.id)

/-- Traversal of the rules of one section in declaration order. -/
def visitRules {NFA : Type} (compile : Pattern → Except String NFA)
    (chain : List (String × ASTSection))
    (st : List (IRRule NFA) × List (String × String)) :
    List ASTRule →
      Except RuleError (List (IRRule NFA) × List (String × String))
  | [] => .ok st
  | r :: rs => do
    let st' ← visitRules compile chain (← visitRule compile chain st r) rs
    .ok st'

mutual

/-- Embedding of `visit_section` / `leave_section` combined with the
traversal: resolve the future imports of the section (mutating its rule
list), register the IR section under its qualified name, visit the rules,
then recurse into the child sections. Returns the updated builder state
together with the post-traversal state of the syntax-tree node (the
in-place pattern mutations made explicit). -/
def buildSection {NFA : Type} (compile : Pattern → Except String NFA)
    (ancestors : List (String × ASTSection)) (g : GState NFA)
    (sec : ASTSection) : Except RuleError (GState NFA × ASTSection) :=
  match sec with
  | .mk nm inh rules children => do
    let q := match ancestors with
      | [] => nm
      | (pq, _) :: _ => pq ++ "." ++ nm
    let rules' ← resolveImports
      (ASTSection.mk nm inh rules children :: ancestors.map Prod.snd) rules
    let chain := (q, ASTSection.mk nm inh rules' children) :: ancestors
    let (irRules, ids') ← visitRules compile chain ([], g.rule_ids) rules'
    let g1 : GState NFA :=
      ⟨dictSet g.sections q ⟨irRules, inh, ancestors.head?.map Prod.fst⟩, ids'⟩
    let (g2, children') ← buildChildren compile chain g1 children
    .ok (g2, ASTSection.mk nm inh rules' children')

/-- Traversal of the child sections in order. -/
def buildChildren {NFA : Type} (compile : Pattern → Except String NFA)
    (ancestors : List (String × ASTSection)) (g : GState NFA) :
    List ASTSection → Except RuleError (GState NFA × List ASTSection)
  | [] => .ok (g, [])
  | c :: cs => do
    let (g1, c') ← buildSection compile ancestors g c
    let (g2, cs') ← buildChildren compile ancestors g1 cs
    .ok (g2, c' :: cs')

end

/-- Result object of `NonDeterministicIR.__init__` (lines 63-72):
`sections`, `rule_ids` and the qualified name of the root. -/
structure IRData (NFA : Type) where
  sections : List (String × IRSection NFA)
  rule_ids : List (String × String)
  root : String
  deriving DecidableEq, Repr

/-- Embedding of `NonDeterministicIR(root)`: run the builder traversal
from the root section on an empty state. Also returns the post-build
state of the input syntax tree, making the in-place mutations of
`visit_section` observable. -/
def buildIR {NFA : Type} (compile : Pattern → Except String NFA) (root : ASTSection) :
    Except RuleError (IRData NFA × ASTSection) := do
  let (g, root') ← buildSection compile [] ⟨[], []⟩ root
  .ok (⟨g.sections, g.rule_ids, root.name⟩, root')

/-- Success test on an `Except` value, used to state that a compilation
run completed without raising. -/
def exceptOk : Except ε α → Bool
  | .ok _ => true
  | .error _ => false

/-- Stand-in pattern compiler for concrete runs: the regex and automata
modules are not under src, and none of the checked properties depend on
the NFA contents, so concrete grammars are compiled into `Unit` NFAs. -/
def compileU : Pattern → Except String Unit := fun _ => .ok ()

/-- Sample pattern. -/
def exPat : Pattern := ⟨"abc", false⟩

/-- Reservation rule `TOK` carrying a default pattern. -/
def exReserveWithPat : ASTRule :=
  ⟨some "TOK", some exPat, [some "reserve"], none, 3, false⟩

/-- Reservation rule `TOK` with no pattern. -/
def exReserveNoPat : ASTRule :=
  ⟨some "TOK", none, [some "reserve"], none, 3, false⟩

/-- Imported rule `TOK` with no pattern of its own, left for
`visit_section` to resolve. -/
def exImportNoPat : ASTRule :=
  ⟨some "TOK", none, [some "import"], none, 7, true⟩

/-- Ordinary named rule `WORD`. -/
def exNormalRule : ASTRule :=
  ⟨some "WORD", some ⟨"xyz", false⟩, [], none, 9, false⟩

/-- Grammar with a patternless reservation that no rule ever imports,
plus one ordinary rule. -/
def exGrammarUnmatchedReservation : ASTSection :=
  .mk "root" false [exReserveNoPat, exNormalRule] []

/-- Grammar with two rules whose identifiers collide case-insensitively. -/
def exGrammarCollision : ASTSection :=
  .mk "root" false
    [⟨some "Id", some exPat, [], none, 4, false⟩,
     ⟨some "ID", some exPat, [], none, 5, false⟩] []

/-- Grammar with a reservation (carrying a pattern) and an ordinary rule. -/
def exGrammarReservation : ASTSection :=
  .mk "root" false [exReserveWithPat, exNormalRule] []

/-- Grammar with a reservation carrying a pattern and an imported rule
with no pattern of its own: building it fills the pattern in place. -/
def exGrammarImport : ASTSection :=
  .mk "root" false [exReserveWithPat, exImportNoPat] []

/-- Grammar with a patternless reservation and an importing rule that
also has no pattern: the unresolvable pair. -/
def exGrammarBadImport : ASTSection :=
  .mk "root" false [exReserveNoPat, exImportNoPat] []

/-- Stand-in pattern compiler whose compilation always fails, for
exercising the error paths of `visit_rule`. -/
def compileF : Pattern → Except String Unit := fun _ => .error "nope"

/-- Rule whose section action enters the child section `STRING`. -/
def exEnterRule : ASTRule :=
  ⟨some "BEGINSTR", some exPat, [], some (some "enter", some "STRING"), 11, false⟩

/-- Rule whose section action enters a section that does not exist. -/
def exEnterMissing : ASTRule :=
  ⟨some "BEGINSTR", some exPat, [], some (some "enter", some "NOWHERE"), 11, false⟩

/-- Empty child section `STRING`. -/
def exChildSec : ASTSection := .mk "STRING" false [] []

/-- Grammar with a root section holding one entering rule and one child
section. -/
def exGrammarEnter : ASTSection := .mk "root" false [exEnterRule] [exChildSec]

end IR

namespace Plugins

/-- JSON value as produced by `json.load` over the plug-in specification
file. -/
inductive JValue : Type where
  | jnull
  | jbool (b : Bool)
  | jint (n : Int)
  | jstr (s : String)
  | jlist (xs : List JValue)
  | jdict (entries : List (String × JValue))
  deriving Repr

/-- Embedding of `is_text` (lines 79-83); the unicode case of Python 2
collapses onto the single string type. -/
def is_text : JValue → Bool
  | .jstr _ => true
  | _ => false

/-- POSIX `os.path.isabs`: the path starts with a slash. -/
def isAbs (s : String) : Bool :=
  match s.data with
  | [] => false
  | c :: _ => c == '/'

/-- POSIX `os.path.join` for a relative second component. -/
def joinPath (base t : String) : String := base ++ "/" ++ t

/-- Embedding of `is_path` (lines 85-97): a string is resolved against
the base directory and checked for existence; the file system is
abstracted as the predicate `fs`; any non-string is rejected. -/
def is_path (fs : String → Bool) (base : String) : JValue → Option String
  | .jstr s =>
    let path := if isAbs s then s else joinPath base s
    if fs path then some path else none
  | _ => none

/-- Python iteration over a JSON value: a list yields its elements, a
string its characters (as one-character strings), a dict its keys;
numbers, booleans and null raise a `TypeError`. -/
def iterElems : JValue → Except String (List JValue)
  | .jlist xs => .ok xs
  | .jstr s => .ok (s.data.map (fun c => .jstr ⟨[c]⟩))
  | .jdict es => .ok (es.map (fun kv => .jstr kv.1))
  | _ => .error "TypeError: object is not iterable"

/-- First-match lookup in a JSON object; the specification files parsed
by `json.load` have distinct keys. -/
def jlookup (es : List (String × JValue)) (k : String) : Option JValue :=
  es.lookup k

/-- Plug-in record (lines 40-50): the constructor arguments stored by
`Plugin.__init__` from a valid specification entry. -/
structure Plugin where
  source_path : String
  plugin_files_directory : String
  dependencies : List (Option String)
  description : String
  deriving DecidableEq, Repr

/-- Mutable locals of the per-plugin attribute loop (lines 121-141). -/
structure AttrState where
  valid : Bool
  plugin_paths : List (String × Option String)
  dependencies : List (Option String)
  description : String
  deriving DecidableEq, Repr

/-- Initial state of the attribute loop (lines 121-124). -/
def initAttrState : AttrState := ⟨true, [], [], ""⟩

/-- Embedding of one iteration of the attribute loop (lines 125-141) for
a dict-valued plug-in entry: `Source`/`Files` store the resolved path and
invalidate on failure; `Dependencies` must be a list whose members all
resolve; `Description` must be a string; other attributes are ignored. -/
def processAttrKey (fs : String → Bool) (base : String) (st : AttrState)
    (k : String) (v : JValue) : Except String AttrState :=
  if k == "Source" || k == "Files" then
    let p := is_path fs base v
    .ok { st with
      plugin_paths := IR.dictSet st.plugin_paths k p
      valid := (match p with | none => false | some _ => st.valid) }
  else if k == "Dependencies" then
    let vList : Bool := (match v with | .jlist _ => st.valid | _ => false)
    match iterElems v with
    | .error e => .error e
    | .ok elems =>
      let deps := elems.map (is_path fs base)
      .ok { st with
        dependencies := deps
        valid := if deps.any (fun d => d == none) then false else vList }
  else if k == "Description" then
    match v with
    | .jstr s => .ok { st with description := s }
    | _ => .ok { st with valid := false }
  else .ok st

/-- Embedding of the body of the per-plugin loop (lines 120-149) for one
plug-in entry value: a dict is walked attribute by attribute and, when the
entry stays valid and holds both `Source` and `Files`, yields a `Plugin`;
iterating a string or a list cannot make the entry valid (at best the loop
finishes with `Source` missing, at worst a name among the attribute
keywords is used to index the non-dict value, a `TypeError`); numbers,
booleans and null are not iterable at all. -/
def processPlugin (fs : String → Bool) (base : String) (pv : JValue) :
    Except String (Option Plugin) :=
  match pv with
  | .jdict attrs =>
    match attrs.foldlM (fun st kv => processAttrKey fs base st kv.1 kv.2)
        initAttrState with
    | .error e => .error e
    | .ok st =>
      if IR.containsKey st.plugin_paths "Source" = false ∨
          IR.containsKey st.plugin_paths "Files" = false then .ok none
      else if st.valid then
        match st.plugin_paths.lookup "Source", st.plugin_paths.lookup "Files" with
        | some (some sp), some (some fp) =>
          .ok (some ⟨sp, fp, st.dependencies, st.description⟩)
        | _, _ => .ok none
      else .ok none
  | other =>
    match iterElems other with
    | .error e => .error e
    | .ok elems =>
      if elems.any (fun e => match e with
          | .jstr s => s == "Source" || s == "Files" || s == "Dependencies" ||
              s == "Description"
          | _ => false) then
        .error "TypeError: value is not subscriptable"
      else .ok none

/-- Test of `re.match` against the identifier pattern of line 120: the
pattern matches exactly when the identifier starts with an ASCII letter
(the starred class may match the empty string). -/
def idOk (s : String) : Bool :=
  match s.data with
  | [] => false
  | c :: _ => (65 ≤ c.toNat && c.toNat ≤ 90) || (97 ≤ c.toNat && c.toNat ≤ 122)

/-- The per-plugin loop of `load` (lines 119-149): entries whose
identifier fails the pattern are skipped silently, invalid entries are
skipped, valid entries are collected into the plug-in dictionary. -/
def collectPlugins (fs : String → Bool) (base : String) :
    List (String × JValue) → Except String (List (String × Plugin))
  | [] => .ok []
  | (pid, pv) :: rest =>
    if idOk pid then
      match processPlugin fs base pv with
      | .error e => .error e
      | .ok none => collectPlugins fs base rest
      | .ok (some p) =>
        match collectPlugins fs base rest with
        | .error e => .error e
        | .ok ps => .ok ((pid, p) :: ps)
    else collectPlugins fs base rest

/-- Version check of line 112: present, an int equal to 1; a Python bool
is an int and `True == 1`, so a true boolean also passes. -/
def versionCheck (pf : List (String × JValue)) : Bool :=
  match jlookup pf "Version" with
  | some (.jint n) => n == 1
  | some (.jbool b) => b
  | _ => false

/-- Default-language extraction of lines 114-116: present and a string. -/
def defaultNameOf (pf : List (String × JValue)) : Option String :=
  match jlookup pf "Default" with
  | some (.jstr d) => some d
  | _ => none

/-- Plug-in dictionary extraction of line 117: present and a dict. -/
def pluginsDictOf (pf : List (String × JValue)) :
    Option (List (String × JValue)) :=
  match jlookup pf "Plugins" with
  | some (.jdict es) => some es
  | _ => none

/-- Embedding of `load` (lines 100-155): validate the version, the
default language and the plug-in dictionary, collect the valid plug-ins,
reject an empty collection and a default that was not loaded, and return
the dictionary with the default identifier. File access is abstracted
into the existence predicate `fs` and the parsed JSON value `pf`. -/
def load (fs : String → Bool) (base : String)
    (pf : List (String × JValue)) :
    Except String (List (String × Plugin) × String) :=
  if versionCheck pf = false then
    .error "Language plug-in file version not recognized"
  else
    match defaultNameOf pf with
    | none => .error "Default language not specified"
    | some d =>
      match pluginsDictOf pf with
      | none => .error "Plugin dictionary not found"
      | some entries =>
        match collectPlugins fs base entries with
        | .error e => .error e
        | .ok plugs =>
          if plugs.isEmpty then .error "No plugins found"
          else if IR.containsKey plugs d then .ok (plugs, d)
          else .error "Default language is invalid"

/-- File-system oracle where every path exists. -/
def fsAll : String → Bool := fun _ => true

/-- Well-formed plug-in specification file with one valid entry. -/
def exPluginFile : List (String × JValue) :=
  [("Version", .jint 1), ("Default", .jstr "c"),
   ("Plugins", .jdict [("c", .jdict
     [("Source", .jstr "/plug/c.py"), ("Files", .jstr "/plug/files")])])]

end Plugins

end PoodleLex

lemma PoodleLex.CAscii.pyMinBy_fold_mem (key : α → Nat) (x : α) (xs : List α) :
    xs.foldl (fun acc y => if key y < key acc then y else acc) x ∈ x :: xs := by
  induction xs generalizing x with
  | nil => simp
  | cons z zs ih =>
    simp only [List.foldl_cons]
    by_cases h : key z < key x
    · simp only [if_pos h]
      exact List.mem_cons_of_mem x (ih z)
    · simp only [if_neg h]
      rcases List.mem_cons.mp (ih x) with h1 | h1
      · rw [h1]; simp
      · simp [h1]

lemma PoodleLex.CAscii.pyMinBy_fold_le (key : α → Nat) (x : α) (xs : List α) :
    ∀ y ∈ x :: xs,
      key (xs.foldl (fun acc y => if key y < key acc then y else acc) x) ≤ key y := by
  induction xs generalizing x with
  | nil => intro y hy; simp at hy; subst hy; simp
  | cons z zs ih =>
    intro y hy
    simp only [List.foldl_cons]
    by_cases h : key z < key x
    · simp only [if_pos h]
      rcases List.mem_cons.mp hy with h1 | h1
      · subst h1
        exact le_trans (ih z z (by simp)) (le_of_lt h)
      · exact ih z y h1
    · simp only [if_neg h]
      rcases List.mem_cons.mp hy with h1 | h1
      · rw [h1]; exact ih x x (by simp)
      · rcases List.mem_cons.mp h1 with h2 | h2
        · rw [h2]
          exact le_trans (ih x x (by simp)) (le_of_not_lt h)
        · exact ih x y (by simp [h2])

lemma PoodleLex.CAscii.pyMinBy_spec (key : α → Nat) (l : List α) (hne : l ≠ []) :
    ∃ t, pyMinBy key l = some t ∧ t ∈ l ∧ ∀ y ∈ l, key t ≤ key y := by
  cases l with
  | nil => exact absurd rfl hne
  | cons x xs =>
    exact ⟨_, rfl, pyMinBy_fold_mem key x xs, pyMinBy_fold_le key x xs⟩


/-- C1: for a DFA state with a non-empty set of final rule identifiers all of
which occur in the declaration-ordered rule list, the emitter's selection
`min(state.final_ids, key = lambda x: tokens_by_priority.index(x))` returns an
identifier of the set whose rule comes earliest in declaration order: its
index is minimal, and strictly below the index of every other member. -/
theorem PoodleLex.CAscii.generate_state_machine_picks_lowest_index
    (tokens_by_priority final_ids : List String)
    (hne : final_ids ≠ [])
    (hmem : ∀ x ∈ final_ids, x ∈ tokens_by_priority) :
    ∃ t, selectToken tokens_by_priority final_ids = some t ∧ t ∈ final_ids ∧
      (∀ y ∈ final_ids,
        tokens_by_priority.indexOf t ≤ tokens_by_priority.indexOf y) ∧
      (∀ y ∈ final_ids, y ≠ t →
        tokens_by_priority.indexOf t < tokens_by_priority.indexOf y) := by
  obtain ⟨t, h1, h2, h3⟩ :=
    pyMinBy_spec (fun z => tokens_by_priority.indexOf z) final_ids hne
  refine ⟨t, h1, h2, fun y hy => by simpa using h3 y hy, ?_⟩
  intro y hy hne'
  have hle : tokens_by_priority.indexOf t ≤ tokens_by_priority.indexOf y := by
    simpa using h3 y hy
  rcases lt_or_eq_of_le hle with h | h
  · exact h
  · exact absurd ((List.indexOf_inj (hmem y hy) (hmem t h2)).mp h.symm) hne'

/-- Witness for C1 at a concrete state: rules declared in order
`KEYWORD_IF`, `IDENTIFIER`; a final state reachable by both selects
`KEYWORD_IF`. -/
theorem PoodleLex.CAscii.generate_state_machine_picks_lowest_index_witness :
    ∃ t, PoodleLex.CAscii.selectToken ["KEYWORD_IF", "IDENTIFIER"]
        ["IDENTIFIER", "KEYWORD_IF"] = some t ∧
      t ∈ ["IDENTIFIER", "KEYWORD_IF"] ∧
      (∀ y ∈ ["IDENTIFIER", "KEYWORD_IF"],
        List.indexOf t ["KEYWORD_IF", "IDENTIFIER"] ≤
          List.indexOf y ["KEYWORD_IF", "IDENTIFIER"]) ∧
      (∀ y ∈ ["IDENTIFIER", "KEYWORD_IF"], y ≠ t →
        List.indexOf t ["KEYWORD_IF", "IDENTIFIER"] <
          List.indexOf y ["KEYWORD_IF", "IDENTIFIER"]) :=
  PoodleLex.CAscii.generate_state_machine_picks_lowest_index
    ["KEYWORD_IF", "IDENTIFIER"] ["IDENTIFIER", "KEYWORD_IF"]
    (by decide) (by decide)

lemma PoodleLex.IR.resolveImports_error_of_mem
    (chain : List PoodleLex.IR.ASTSection) (rs : List PoodleLex.IR.ASTRule)
    (r : PoodleLex.IR.ASTRule) (e : PoodleLex.IR.RuleError)
    (hmem : r ∈ rs) (herr : PoodleLex.IR.resolveImport chain r = .error e) :
    ∃ e', PoodleLex.IR.resolveImports chain rs = .error e' := by
  induction rs with
  | nil => cases hmem
  | cons a as ih =>
    rcases List.mem_cons.mp hmem with h | h
    · subst h
      exact ⟨e, by simp only [resolveImports, herr]; rfl⟩
    · cases ha : PoodleLex.IR.resolveImport chain a with
      | error e2 => exact ⟨e2, by simp only [resolveImports, ha]; rfl⟩
      | ok a' =>
        obtain ⟨e', he'⟩ := ih h
        exact ⟨e', by simp only [resolveImports, ha, he']; rfl⟩

/-- C2: for every imported rule (marked `future_import`) in a section, the
loop of `visit_section` (lines 87-100) resolves it against the reservation
of the same identifier: a rule without its own pattern inherits the
reservation pattern; when both patterns are absent the rule fails with the
unresolved-pattern error; when no reservation exists the rule fails as
well. -/
theorem PoodleLex.IR.visit_section_resolves_imports
    (chain : List PoodleLex.IR.ASTSection) (r : PoodleLex.IR.ASTRule)
    (himp : r.future_import = true) :
    (∀ res, PoodleLex.IR.findReservation chain r.id = some res →
      (∀ p, res.pattern = some p → r.pattern = none →
        PoodleLex.IR.resolveImport chain r = .ok { r with pattern := some p }) ∧
      (res.pattern = none → r.pattern = none →
        PoodleLex.IR.resolveImport chain r = .error ⟨r.line_number,
          "pattern must be defined for imported rule if not defined by reservation rule"⟩)) ∧
    (PoodleLex.IR.findReservation chain r.id = none →
      PoodleLex.IR.resolveImport chain r = .error ⟨r.line_number,
        "reservation not found for imported rule"⟩) := by
  refine ⟨fun res hres => ⟨fun p hp hrp => ?_, fun hp hrp => ?_⟩, fun hres => ?_⟩
  · simp [resolveImport, himp, hres, hrp, hp]
  · simp [resolveImport, himp, hres, hrp, hp]
  · simp [resolveImport, himp, hres]

/-- Witness for C2 at a concrete grammar: the patternless import of `TOK`
inherits the pattern of the reservation `TOK`. -/
theorem PoodleLex.IR.visit_section_resolves_imports_witness :
    PoodleLex.IR.resolveImport [PoodleLex.IR.exGrammarImport]
        PoodleLex.IR.exImportNoPat =
      .ok { PoodleLex.IR.exImportNoPat with pattern := some PoodleLex.IR.exPat } :=
  (((PoodleLex.IR.visit_section_resolves_imports [PoodleLex.IR.exGrammarImport]
      PoodleLex.IR.exImportNoPat rfl).1 PoodleLex.IR.exReserveWithPat
      (by decide)).1 PoodleLex.IR.exPat rfl rfl)

/-- C3 counterexample: a reservation with no pattern that no rule imports
is silently accepted — building the IR over such a grammar succeeds
instead of failing with an unresolved-pattern error. -/
theorem PoodleLex.IR.unmatched_reservation_is_silently_accepted :
    PoodleLex.IR.exceptOk
      (PoodleLex.IR.buildIR PoodleLex.IR.compileU
        PoodleLex.IR.exGrammarUnmatchedReservation) = true := by decide

/-- C3 amended: an unresolved patternless reservation is fatal only through
an importing rule: when some imported rule of the section lacks a pattern
and the reservation found for it lacks one too, import resolution fails;
a section whose rules contain no imports passes import resolution
unchanged, so an unmatched patternless reservation alone is skipped
silently. -/
theorem PoodleLex.IR.unresolved_reservation_fails_only_via_import :
    (∀ (chain : List PoodleLex.IR.ASTSection) (rs : List PoodleLex.IR.ASTRule)
       (r res : PoodleLex.IR.ASTRule),
      r ∈ rs → r.future_import = true → r.pattern = none →
      PoodleLex.IR.findReservation chain r.id = some res → res.pattern = none →
      ∃ e, PoodleLex.IR.resolveImports chain rs = .error e) ∧
    (∀ (chain : List PoodleLex.IR.ASTSection) (rs : List PoodleLex.IR.ASTRule),
      (∀ r ∈ rs, r.future_import = false) →
      PoodleLex.IR.resolveImports chain rs = .ok rs) := by
  constructor
  · intro chain rs r res hmem himp hrp hres hresp
    apply PoodleLex.IR.resolveImports_error_of_mem chain rs r
      ⟨r.line_number,
        "pattern must be defined for imported rule if not defined by reservation rule"⟩
      hmem
    simp [resolveImport, himp, hres, hrp, hresp]
  · intro chain rs h
    induction rs with
    | nil => simp [resolveImports]
    | cons a as ih =>
      have ha := h a (by simp)
      have has := ih (fun r hr => h r (by simp [hr]))
      simp only [resolveImports, resolveImport, ha, Bool.false_eq_true, if_false, has]
      rfl

/-- Witness for C3 amended at a concrete grammar: a patternless import of
a patternless reservation makes import resolution fail. -/
theorem PoodleLex.IR.unresolved_reservation_fails_only_via_import_witness :
    ∃ e, PoodleLex.IR.resolveImports [PoodleLex.IR.exGrammarBadImport]
      PoodleLex.IR.exGrammarBadImport.rules = .error e :=
  PoodleLex.IR.unresolved_reservation_fails_only_via_import.1
    [PoodleLex.IR.exGrammarBadImport] PoodleLex.IR.exGrammarBadImport.rules
    PoodleLex.IR.exImportNoPat PoodleLex.IR.exReserveNoPat
    (by decide) rfl rfl (by decide) rfl

/-- C9 counterexample: building the IR does not leave the input tree
unchanged — the patternless imported rule of the concrete grammar comes
back with its pattern field overwritten by the reservation pattern. -/
theorem PoodleLex.IR.build_mutates_imported_rule_pattern :
    ∃ out, PoodleLex.IR.buildIR PoodleLex.IR.compileU
        PoodleLex.IR.exGrammarImport = .ok out ∧
      out.2.rules ≠ PoodleLex.IR.exGrammarImport.rules := by
  refine ⟨_, rfl, ?_⟩
  decide

/-- C9 amended: the only mutation the builder performs on data produced by
the earlier stage is filling the pattern of a patternless imported rule:
the resolution pass preserves every other field, returns non-import rules
unchanged, and returns imports that already carry a pattern unchanged. -/
theorem PoodleLex.IR.resolveImport_mutates_only_import_patterns
    (chain : List PoodleLex.IR.ASTSection) (r r' : PoodleLex.IR.ASTRule)
    (h : PoodleLex.IR.resolveImport chain r = .ok r') :
    r'.id = r.id ∧ r'.rule_action = r.rule_action ∧
    r'.section_action = r.section_action ∧ r'.line_number = r.line_number ∧
    r'.future_import = r.future_import ∧
    (r.future_import = false → r' = r) ∧
    (∀ p, r.pattern = some p → r' = r) := by
  by_cases himp : r.future_import = true
  · cases hres : PoodleLex.IR.findReservation chain r.id with
    | none => simp [resolveImport, himp, hres] at h
    | some res =>
      cases hrp : r.pattern with
      | some p =>
        simp [resolveImport, himp, hres, hrp] at h
        subst h
        simp
      | none =>
        cases hresp : res.pattern with
        | none => simp [resolveImport, himp, hres, hrp, hresp] at h
        | some p =>
          simp [resolveImport, himp, hres, hrp, hresp] at h
          subst h
          refine ⟨rfl, rfl, rfl, rfl, by simp [himp], ?_, ?_⟩
          · intro hf; rw [himp] at hf; cases hf
          · intro q hq; cases hq
  · simp only [Bool.not_eq_true] at himp
    simp [resolveImport, himp] at h
    subst h
    simp

/-- Witness for C9 amended at a concrete rule: an ordinary (non-import)
rule passes through import resolution unchanged. -/
theorem PoodleLex.IR.resolveImport_mutates_only_import_patterns_witness :
    PoodleLex.IR.exNormalRule.id = PoodleLex.IR.exNormalRule.id ∧
    PoodleLex.IR.exNormalRule.rule_action = PoodleLex.IR.exNormalRule.rule_action ∧
    PoodleLex.IR.exNormalRule.section_action = PoodleLex.IR.exNormalRule.section_action ∧
    PoodleLex.IR.exNormalRule.line_number = PoodleLex.IR.exNormalRule.line_number ∧
    PoodleLex.IR.exNormalRule.future_import = PoodleLex.IR.exNormalRule.future_import ∧
    (PoodleLex.IR.exNormalRule.future_import = false →
      PoodleLex.IR.exNormalRule = PoodleLex.IR.exNormalRule) ∧
    (∀ p, PoodleLex.IR.exNormalRule.pattern = some p →
      PoodleLex.IR.exNormalRule = PoodleLex.IR.exNormalRule) :=
  PoodleLex.IR.resolveImport_mutates_only_import_patterns []
    PoodleLex.IR.exNormalRule PoodleLex.IR.exNormalRule rfl

lemma PoodleLex.IR.except_bind_ok (a : α) (f : α → Except ε β) :
    (Except.ok a >>= f) = f a := rfl

lemma PoodleLex.IR.except_bind_error (e : ε) (f : α → Except ε β) :
    ((Except.error e : Except ε α) >>= f) = Except.error e := rfl

lemma PoodleLex.IR.compileRule_ok_fields {NFA : Type}
    (compile : PoodleLex.IR.Pattern → Except String NFA)
    (chain : List (String × PoodleLex.IR.ASTSection))
    (r : PoodleLex.IR.ASTRule) (ir : PoodleLex.IR.IRRule NFA)
    (h : PoodleLex.IR.compileRule compile chain r = .ok ir) :
    ir.id = r.id ∧
    ir.action = r.rule_action.map (Option.map pyLower) ∧
    ir.line_number = r.line_number := by
  unfold compileRule at h
  split at h
  · cases h
  · split at h
    · cases h
    · split at h
      · cases h; simp
      · cases h; simp
      · split at h
        · cases h
        · cases h; simp

lemma PoodleLex.IR.visitRule_reserve {NFA : Type}
    (compile : PoodleLex.IR.Pattern → Except String NFA)
    (chain : List (String × PoodleLex.IR.ASTSection))
    (st : List (PoodleLex.IR.IRRule NFA) × List (String × String))
    (r : PoodleLex.IR.ASTRule) (h : PoodleLex.IR.hasReserve r = true) :
    PoodleLex.IR.visitRule compile chain st r = .ok st := by
  simp [visitRule, h]

lemma PoodleLex.IR.visitRule_ok {NFA : Type}
    (compile : PoodleLex.IR.Pattern → Except String NFA)
    (chain : List (String × PoodleLex.IR.ASTSection))
    (st : List (PoodleLex.IR.IRRule NFA) × List (String × String))
    (r : PoodleLex.IR.ASTRule) (ir : PoodleLex.IR.IRRule NFA)
    (hres : PoodleLex.IR.hasReserve r = false)
    (hc : PoodleLex.IR.compileRule compile chain r = .ok ir) :
    PoodleLex.IR.visitRule compile chain st r =
      .ok (st.1 ++ [ir], PoodleLex.IR.updateRuleIds st.2 r.id) := by
  simp [visitRule, hres, hc]

lemma PoodleLex.IR.visitRule_error {NFA : Type}
    (compile : PoodleLex.IR.Pattern → Except String NFA)
    (chain : List (String × PoodleLex.IR.ASTSection))
    (st : List (PoodleLex.IR.IRRule NFA) × List (String × String))
    (r : PoodleLex.IR.ASTRule) (msg : String)
    (hres : PoodleLex.IR.hasReserve r = false)
    (hc : PoodleLex.IR.compileRule compile chain r = .error msg) :
    PoodleLex.IR.visitRule compile chain st r =
      .error ⟨r.line_number, PoodleLex.IR.fmtRuleFailure r.id msg⟩ := by
  simp [visitRule, hres, hc]

lemma PoodleLex.IR.visitRules_cons {NFA : Type}
    (compile : PoodleLex.IR.Pattern → Except String NFA)
    (chain : List (String × PoodleLex.IR.ASTSection))
    (st st' : List (PoodleLex.IR.IRRule NFA) × List (String × String))
    (r : PoodleLex.IR.ASTRule) (rs : List PoodleLex.IR.ASTRule)
    (h : PoodleLex.IR.visitRule compile chain st r = .ok st') :
    PoodleLex.IR.visitRules compile chain st (r :: rs) =
      PoodleLex.IR.visitRules compile chain st' rs := by
  simp only [visitRules, h, except_bind_ok]
  cases PoodleLex.IR.visitRules compile chain st' rs <;> rfl

lemma PoodleLex.IR.visitRules_cons_error {NFA : Type}
    (compile : PoodleLex.IR.Pattern → Except String NFA)
    (chain : List (String × PoodleLex.IR.ASTSection))
    (st : List (PoodleLex.IR.IRRule NFA) × List (String × String))
    (r : PoodleLex.IR.ASTRule) (rs : List PoodleLex.IR.ASTRule)
    (e : PoodleLex.IR.RuleError)
    (h : PoodleLex.IR.visitRule compile chain st r = .error e) :
    PoodleLex.IR.visitRules compile chain st (r :: rs) = .error e := by
  simp only [visitRules, h, except_bind_error]

/-- C4: `visit_rule` appends nothing and builds no NFA for a rule whose
`rule_action` holds `reserve` (the outcome does not depend on the pattern
compiler at all); for a non-reservation rule whose compilation succeeds it
appends exactly one IR rule, carrying the rule identifier, the lowered
action list and the line number; over a whole rule list the identifiers of
the produced IR rules are exactly those of the non-reservation rules in
declaration order. -/
theorem PoodleLex.IR.visit_rule_appends_exactly_non_reserved :
    (∀ (NFA : Type) (compile : PoodleLex.IR.Pattern → Except String NFA)
       (chain : List (String × PoodleLex.IR.ASTSection))
       (st : List (PoodleLex.IR.IRRule NFA) × List (String × String))
       (r : PoodleLex.IR.ASTRule),
      PoodleLex.IR.hasReserve r = true →
      PoodleLex.IR.visitRule compile chain st r = .ok st) ∧
    (∀ (NFA : Type) (compile : PoodleLex.IR.Pattern → Except String NFA)
       (chain : List (String × PoodleLex.IR.ASTSection))
       (st : List (PoodleLex.IR.IRRule NFA) × List (String × String))
       (r : PoodleLex.IR.ASTRule) (ir : PoodleLex.IR.IRRule NFA),
      PoodleLex.IR.hasReserve r = false →
      PoodleLex.IR.compileRule compile chain r = .ok ir →
      PoodleLex.IR.visitRule compile chain st r =
        .ok (st.1 ++ [ir], PoodleLex.IR.updateRuleIds st.2 r.id) ∧
      ir.id = r.id ∧
      ir.action = r.rule_action.map (Option.map pyLower) ∧
      ir.line_number = r.line_number) ∧
    (∀ (NFA : Type) (compile : PoodleLex.IR.Pattern → Except String NFA)
       (chain : List (String × PoodleLex.IR.ASTSection))
       (st out : List (PoodleLex.IR.IRRule NFA) × List (String × String))
       (rs : List PoodleLex.IR.ASTRule),
      PoodleLex.IR.visitRules compile chain st rs = .ok out →
      out.1.map PoodleLex.IR.IRRule.id =
        st.1.map PoodleLex.IR.IRRule.id ++
          (rs.filter (fun r => !PoodleLex.IR.hasReserve r)).map
            PoodleLex.IR.ASTRule.id) := by
  refine ⟨?_, ?_, ?_⟩
  · intro NFA compile chain st r h
    exact PoodleLex.IR.visitRule_reserve compile chain st r h
  · intro NFA compile chain st r ir hres hc
    obtain ⟨h1, h2, h3⟩ :=
      PoodleLex.IR.compileRule_ok_fields compile chain r ir hc
    exact ⟨PoodleLex.IR.visitRule_ok compile chain st r ir hres hc, h1, h2, h3⟩
  · intro NFA compile chain st out rs h
    induction rs generalizing st with
    | nil =>
      simp only [visitRules] at h
      cases h
      simp
    | cons a as ih =>
      by_cases hr : PoodleLex.IR.hasReserve a = true
      · rw [PoodleLex.IR.visitRules_cons compile chain st st a as
          (PoodleLex.IR.visitRule_reserve compile chain st a hr)] at h
        simp [ih st h, hr]
      · rw [Bool.not_eq_true] at hr
        cases hc : PoodleLex.IR.compileRule compile chain a with
        | error e =>
          rw [PoodleLex.IR.visitRules_cons_error compile chain st a as _
            (PoodleLex.IR.visitRule_error compile chain st a e hr hc)] at h
          cases h
        | ok ir =>
          rw [PoodleLex.IR.visitRules_cons compile chain st _ a as
            (PoodleLex.IR.visitRule_ok compile chain st a ir hr hc)] at h
          have hrec := ih _ h
          obtain ⟨h1, _, _⟩ :=
            PoodleLex.IR.compileRule_ok_fields compile chain a ir hc
          simp [hrec, hr, h1]

/-- Witness for C4 at a concrete input: a reservation rule is skipped even
under a pattern compiler that always fails. -/
theorem PoodleLex.IR.visit_rule_appends_exactly_non_reserved_witness :
    PoodleLex.IR.visitRule PoodleLex.IR.compileF [] ([], [])
      PoodleLex.IR.exReserveNoPat = .ok ([], []) :=
  PoodleLex.IR.visit_rule_appends_exactly_non_reserved.1 Unit
    PoodleLex.IR.compileF [] ([], []) PoodleLex.IR.exReserveNoPat (by decide)

/-- C6: when the compilation of a non-reservation rule fails for any
reason (unparsable pattern, unresolved variable — both surfaced by the
abstract pattern compiler — or an unresolved section target), `visit_rule`
re-raises exactly one failure attributed to that rule: the error carries
the rule line number and a message that names the rule identifier when
present and states that the rule is anonymous otherwise; and the failure
aborts the traversal of the whole rule list, so no partial IR is
returned. -/
theorem PoodleLex.IR.one_bad_rule_aborts_compilation :
    (∀ (NFA : Type) (compile : PoodleLex.IR.Pattern → Except String NFA)
       (chain : List (String × PoodleLex.IR.ASTSection))
       (st : List (PoodleLex.IR.IRRule NFA) × List (String × String))
       (r : PoodleLex.IR.ASTRule) (msg : String),
      PoodleLex.IR.hasReserve r = false →
      PoodleLex.IR.compileRule compile chain r = .error msg →
      PoodleLex.IR.visitRule compile chain st r =
        .error ⟨r.line_number, PoodleLex.IR.fmtRuleFailure r.id msg⟩) ∧
    (∀ msg, PoodleLex.IR.fmtRuleFailure none msg = "anonymous rule: " ++ msg) ∧
    (∀ n msg, PoodleLex.IR.fmtRuleFailure (some n) msg =
      "rule " ++ n ++ ": " ++ msg) ∧
    (∀ (NFA : Type) (compile : PoodleLex.IR.Pattern → Except String NFA)
       (chain : List (String × PoodleLex.IR.ASTSection))
       (st st1 : List (PoodleLex.IR.IRRule NFA) × List (String × String))
       (r : PoodleLex.IR.ASTRule) (msg : String)
       (rs1 rs2 : List PoodleLex.IR.ASTRule),
      PoodleLex.IR.hasReserve r = false →
      PoodleLex.IR.compileRule compile chain r = .error msg →
      PoodleLex.IR.visitRules compile chain st rs1 = .ok st1 →
      PoodleLex.IR.visitRules compile chain st (rs1 ++ r :: rs2) =
        .error ⟨r.line_number, PoodleLex.IR.fmtRuleFailure r.id msg⟩) := by
  refine ⟨?_, fun msg => rfl, fun n msg => rfl, ?_⟩
  · intro NFA compile chain st r msg hres hc
    exact PoodleLex.IR.visitRule_error compile chain st r msg hres hc
  · intro NFA compile chain st st1 r msg rs1 rs2 hres hc hpre
    induction rs1 generalizing st with
    | nil =>
      simp only [List.nil_append]
      exact PoodleLex.IR.visitRules_cons_error compile chain st r rs2 _
        (PoodleLex.IR.visitRule_error compile chain st r msg hres hc)
    | cons a as ih =>
      cases hv : PoodleLex.IR.visitRule compile chain st a with
      | error e =>
        rw [PoodleLex.IR.visitRules_cons_error compile chain st a as e hv]
          at hpre
        cases hpre
      | ok st' =>
        rw [PoodleLex.IR.visitRules_cons compile chain st st' a as hv] at hpre
        rw [List.cons_append,
          PoodleLex.IR.visitRules_cons compile chain st st' a
            (as ++ r :: rs2) hv]
        exact ih st' hpre

/-- Witness for C6 at a concrete input: a named rule whose pattern fails
to compile is re-raised with the message naming the rule. -/
theorem PoodleLex.IR.one_bad_rule_aborts_compilation_witness :
    PoodleLex.IR.visitRule PoodleLex.IR.compileF [] ([], [])
        PoodleLex.IR.exNormalRule =
      .error ⟨9, PoodleLex.IR.fmtRuleFailure (some "WORD") "nope"⟩ :=
  PoodleLex.IR.one_bad_rule_aborts_compilation.1 Unit PoodleLex.IR.compileF
    [] ([], []) PoodleLex.IR.exNormalRule "nope" (by decide) rfl

/-- C7: for a rule carrying a section action with a named target, the
resolver (modelled from the spec as a total function into `Option`)
returns not-found rather than raising; when the target does not resolve
the builder fails the rule with an error naming the target section, and
when it does resolve the stored IR rule's section action is the pair of
the action and the qualified name of the resolved section. -/
theorem PoodleLex.IR.section_action_target_resolution :
    ∀ (NFA : Type) (compile : PoodleLex.IR.Pattern → Except String NFA)
      (chain : List (String × PoodleLex.IR.ASTSection))
      (st : List (PoodleLex.IR.IRRule NFA) × List (String × String))
      (r : PoodleLex.IR.ASTRule) (act : Option String) (target : String)
      (p : PoodleLex.IR.Pattern) (nfa : NFA),
      PoodleLex.IR.hasReserve r = false →
      r.pattern = some p → compile p = .ok nfa →
      r.section_action = some (act, some target) →
      (PoodleLex.IR.sectionResolve target chain = none →
        PoodleLex.IR.visitRule compile chain st r =
          .error ⟨r.line_number,
            PoodleLex.IR.fmtRuleFailure r.id
              ("section " ++ target ++ " not found")⟩) ∧
      (∀ (q : String) (s : PoodleLex.IR.ASTSection),
        PoodleLex.IR.sectionResolve target chain = some (q, s) →
        PoodleLex.IR.visitRule compile chain st r =
          .ok (st.1 ++ [⟨r.id, nfa,
              r.rule_action.map (Option.map pyLower),
              some (act, some q), r.line_number⟩],
            PoodleLex.IR.updateRuleIds st.2 r.id)) := by
  intro NFA compile chain st r act target p nfa hres hp hc hsa
  constructor
  · intro hnone
    apply PoodleLex.IR.visitRule_error compile chain st r _ hres
    unfold compileRule
    simp only [hp, hc, hsa, hnone]
  · intro q s hsome
    apply PoodleLex.IR.visitRule_ok compile chain st r _ hres
    unfold compileRule
    simp only [hp, hc, hsa, hsome]

/-- Witness for C7 at a concrete grammar: the rule entering the child
section `STRING` of the root stores the qualified name `root.STRING`. -/
theorem PoodleLex.IR.section_action_target_resolution_witness :
    PoodleLex.IR.visitRule PoodleLex.IR.compileU
        [("root", PoodleLex.IR.exGrammarEnter)]
        (([], []) : List (PoodleLex.IR.IRRule Unit) × List (String × String))
        PoodleLex.IR.exEnterRule =
      .ok ((([], []) :
            List (PoodleLex.IR.IRRule Unit) × List (String × String)).1 ++
          [⟨PoodleLex.IR.exEnterRule.id, (),
            PoodleLex.IR.exEnterRule.rule_action.map (Option.map pyLower),
            some (some "enter", some "root.STRING"),
            PoodleLex.IR.exEnterRule.line_number⟩],
        PoodleLex.IR.updateRuleIds
          ((([], []) :
            List (PoodleLex.IR.IRRule Unit) × List (String × String))).2
          PoodleLex.IR.exEnterRule.id) :=
  (PoodleLex.IR.section_action_target_resolution Unit PoodleLex.IR.compileU
    [("root", PoodleLex.IR.exGrammarEnter)] ([], [])
    PoodleLex.IR.exEnterRule (some "enter") "STRING" PoodleLex.IR.exPat ()
    rfl rfl rfl rfl).2 "root.STRING" PoodleLex.IR.exChildSec rfl

lemma PoodleLex.IR.resolveImports_of_no_imports
    (chain : List PoodleLex.IR.ASTSection) (rs : List PoodleLex.IR.ASTRule)
    (h : ∀ r ∈ rs, r.future_import = false) :
    PoodleLex.IR.resolveImports chain rs = .ok rs := by
  induction rs with
  | nil => rfl
  | cons a as ih =>
    have ha := h a (by simp)
    have has := ih (fun r hr => h r (by simp [hr]))
    simp only [resolveImports, resolveImport, ha, Bool.false_eq_true, if_false,
      has]
    rfl

lemma PoodleLex.IR.containsKey_dictSet_self (d : List (String × α))
    (k : String) (v : α) :
    PoodleLex.IR.containsKey (PoodleLex.IR.dictSet d k v) k = true := by
  unfold dictSet
  by_cases h : PoodleLex.IR.containsKey d k = true
  · rw [if_pos h]
    unfold containsKey at h ⊢
    rw [List.any_eq_true] at h ⊢
    obtain ⟨kv, hmem, hk⟩ := h
    exact ⟨(k, v), List.mem_map.mpr ⟨kv, hmem, by simp [hk]⟩, by simp⟩
  · rw [if_neg h]
    unfold containsKey
    simp

/-- C5 counterexample: a grammar holding the rules `Id` and `ID` (equal
case-insensitively, distinct rules) builds successfully — no duplicate
identifier check exists — and both spellings end up in `rule_ids`. -/
theorem PoodleLex.IR.case_insensitive_collision_builds_successfully :
    ∃ out, PoodleLex.IR.buildIR PoodleLex.IR.compileU
        PoodleLex.IR.exGrammarCollision = .ok out ∧
      out.1.rule_ids = [("Id", "Id"), ("ID", "ID")] := by
  exact ⟨_, rfl, rfl⟩

/-- C5 amended: the IR builder performs no duplicate-identifier check: a
grammar with two rules whose identifiers are equal case-insensitively but
not equal exactly completes successfully (the membership test of line 149
compares the lowercased identifier against keys stored with their original
case, so no error path exists); the first identifier is always a key of
`rule_ids`, and the second is present either as itself or through the
lowercase key that suppressed it. -/
theorem PoodleLex.IR.duplicate_identifiers_not_rejected
    (NFA : Type) (compile : PoodleLex.IR.Pattern → Except String NFA)
    (a b : String) (pa pb : PoodleLex.IR.Pattern) (na nb : NFA) (la lb : Nat)
    (hca : compile pa = .ok na) (hcb : compile pb = .ok nb)
    (hlow : PoodleLex.IR.pyLower a = PoodleLex.IR.pyLower b) (hne : a ≠ b) :
    ∃ out, PoodleLex.IR.buildIR compile
        (PoodleLex.IR.ASTSection.mk "root" false
          [⟨some a, some pa, [], none, la, false⟩,
           ⟨some b, some pb, [], none, lb, false⟩] []) = .ok out ∧
      PoodleLex.IR.containsKey out.1.rule_ids a = true ∧
      (PoodleLex.IR.containsKey out.1.rule_ids b = true ∨
       PoodleLex.IR.containsKey out.1.rule_ids (PoodleLex.IR.pyLower b) = true) := by
  have hR1 : ∀ (c : List (String × PoodleLex.IR.ASTSection)),
      PoodleLex.IR.compileRule compile c
        (⟨some a, some pa, [], none, la, false⟩ : PoodleLex.IR.ASTRule) =
        .ok ⟨some a, na, [], none, la⟩ := by
    intro c
    simp only [compileRule, hca]
    rfl
  have hR2 : ∀ (c : List (String × PoodleLex.IR.ASTSection)),
      PoodleLex.IR.compileRule compile c
        (⟨some b, some pb, [], none, lb, false⟩ : PoodleLex.IR.ASTRule) =
        .ok ⟨some b, nb, [], none, lb⟩ := by
    intro c
    simp only [compileRule, hcb]
    rfl
  have hV1 : ∀ (c : List (String × PoodleLex.IR.ASTSection)),
      PoodleLex.IR.visitRule compile c ([], [])
        (⟨some a, some pa, [], none, la, false⟩ : PoodleLex.IR.ASTRule) =
        .ok ([⟨some a, na, [], none, la⟩], [(a, a)]) := by
    intro c
    rw [PoodleLex.IR.visitRule_ok compile c ([], [])
      ⟨some a, some pa, [], none, la, false⟩ ⟨some a, na, [], none, la⟩
      rfl (hR1 c)]
    simp [updateRuleIds, containsKey, dictSet]
  have hRI : PoodleLex.IR.resolveImports
      [PoodleLex.IR.ASTSection.mk "root" false
        [⟨some a, some pa, [], none, la, false⟩,
         ⟨some b, some pb, [], none, lb, false⟩] []]
      [⟨some a, some pa, [], none, la, false⟩,
       ⟨some b, some pb, [], none, lb, false⟩] =
      .ok [⟨some a, some pa, [], none, la, false⟩,
           ⟨some b, some pb, [], none, lb, false⟩] := by
    apply PoodleLex.IR.resolveImports_of_no_imports
    intro r hr
    simp only [List.mem_cons, List.not_mem_nil, or_false] at hr
    rcases hr with rfl | rfl <;> rfl
  by_cases hk : (a == PoodleLex.IR.pyLower b) = true
  · have hV2 : ∀ (c : List (String × PoodleLex.IR.ASTSection)),
        PoodleLex.IR.visitRule compile c
          ([⟨some a, na, [], none, la⟩], [(a, a)])
          (⟨some b, some pb, [], none, lb, false⟩ : PoodleLex.IR.ASTRule) =
          .ok ([⟨some a, na, [], none, la⟩, ⟨some b, nb, [], none, lb⟩],
            [(a, a)]) := by
      intro c
      rw [PoodleLex.IR.visitRule_ok compile c
        ([⟨some a, na, [], none, la⟩], [(a, a)])
        ⟨some b, some pb, [], none, lb, false⟩ ⟨some b, nb, [], none, lb⟩
        rfl (hR2 c)]
      simp [updateRuleIds, containsKey, hk]
    have hVs : ∀ (c : List (String × PoodleLex.IR.ASTSection)),
        PoodleLex.IR.visitRules compile c ([], [])
          [⟨some a, some pa, [], none, la, false⟩,
           ⟨some b, some pb, [], none, lb, false⟩] =
          .ok ([⟨some a, na, [], none, la⟩, ⟨some b, nb, [], none, lb⟩],
            [(a, a)]) := by
      intro c
      rw [PoodleLex.IR.visitRules_cons compile c _ _ _ _ (hV1 c),
        PoodleLex.IR.visitRules_cons compile c _ _ _ _ (hV2 c)]
      rfl
    refine ⟨(⟨[("root", ⟨[⟨some a, na, [], none, la⟩,
        ⟨some b, nb, [], none, lb⟩], false, none⟩)], [(a, a)], "root"⟩,
        PoodleLex.IR.ASTSection.mk "root" false
          [⟨some a, some pa, [], none, la, false⟩,
           ⟨some b, some pb, [], none, lb, false⟩] []), ?_, ?_, ?_⟩
    · unfold buildIR buildSection
      simp only [List.map_nil]
      rw [hRI]
      simp only [except_bind_ok]
      rw [hVs]
      simp only [except_bind_ok, buildChildren]
      simp [dictSet, containsKey, ASTSection.name]
    · simp [containsKey]
    · right
      simp [containsKey, hk]
  · have hV2 : ∀ (c : List (String × PoodleLex.IR.ASTSection)),
        PoodleLex.IR.visitRule compile c
          ([⟨some a, na, [], none, la⟩], [(a, a)])
          (⟨some b, some pb, [], none, lb, false⟩ : PoodleLex.IR.ASTRule) =
          .ok ([⟨some a, na, [], none, la⟩, ⟨some b, nb, [], none, lb⟩],
            [(a, a), (b, b)]) := by
      intro c
      rw [PoodleLex.IR.visitRule_ok compile c
        ([⟨some a, na, [], none, la⟩], [(a, a)])
        ⟨some b, some pb, [], none, lb, false⟩ ⟨some b, nb, [], none, lb⟩
        rfl (hR2 c)]
      have hab : (a == b) = false := beq_eq_false_iff_ne.mpr hne
      simp [updateRuleIds, containsKey, hk, dictSet, hab]
    have hVs : ∀ (c : List (String × PoodleLex.IR.ASTSection)),
        PoodleLex.IR.visitRules compile c ([], [])
          [⟨some a, some pa, [], none, la, false⟩,
           ⟨some b, some pb, [], none, lb, false⟩] =
          .ok ([⟨some a, na, [], none, la⟩, ⟨some b, nb, [], none, lb⟩],
            [(a, a), (b, b)]) := by
      intro c
      rw [PoodleLex.IR.visitRules_cons compile c _ _ _ _ (hV1 c),
        PoodleLex.IR.visitRules_cons compile c _ _ _ _ (hV2 c)]
      rfl
    refine ⟨(⟨[("root", ⟨[⟨some a, na, [], none, la⟩,
        ⟨some b, nb, [], none, lb⟩], false, none⟩)], [(a, a), (b, b)],
        "root"⟩,
        PoodleLex.IR.ASTSection.mk "root" false
          [⟨some a, some pa, [], none, la, false⟩,
           ⟨some b, some pb, [], none, lb, false⟩] []), ?_, ?_, ?_⟩
    · unfold buildIR buildSection
      simp only [List.map_nil]
      rw [hRI]
      simp only [except_bind_ok]
      rw [hVs]
      simp only [except_bind_ok, buildChildren]
      simp [dictSet, containsKey, ASTSection.name]
    · simp [containsKey]
    · left
      simp [containsKey]

/-- Witness for C5 amended at the concrete collision `Id` / `ID`. -/
theorem PoodleLex.IR.duplicate_identifiers_not_rejected_witness :
    ∃ out, PoodleLex.IR.buildIR PoodleLex.IR.compileU
        (PoodleLex.IR.ASTSection.mk "root" false
          [⟨some "Id", some PoodleLex.IR.exPat, [], none, 4, false⟩,
           ⟨some "ID", some PoodleLex.IR.exPat, [], none, 5, false⟩] []) =
        .ok out ∧
      PoodleLex.IR.containsKey out.1.rule_ids "Id" = true ∧
      (PoodleLex.IR.containsKey out.1.rule_ids "ID" = true ∨
       PoodleLex.IR.containsKey out.1.rule_ids (PoodleLex.IR.pyLower "ID") = true) :=
  PoodleLex.IR.duplicate_identifiers_not_rejected Unit PoodleLex.IR.compileU
    "Id" "ID" PoodleLex.IR.exPat PoodleLex.IR.exPat () () 4 5 rfl rfl
    (by decide) (by decide)

/-- C8 counterexample: after building a grammar holding the reservation
`TOK` (which no rule imports) and the ordinary rule `WORD`, the `rule_ids`
dictionary holds only `WORD`: the identifier of the reservation rule is
not exposed, contrary to the claim that `rule_ids` covers every rule
including reservations. -/
theorem PoodleLex.IR.rule_ids_misses_reservation_identifiers :
    ∃ out, PoodleLex.IR.buildIR PoodleLex.IR.compileU
        PoodleLex.IR.exGrammarReservation = .ok out ∧
      out.1.rule_ids = [("WORD", "WORD")] ∧
      PoodleLex.IR.containsKey out.1.rule_ids "TOK" = false := by
  exact ⟨_, rfl, rfl, rfl⟩

/-- C8 amended: `rule_ids` receives identifiers only from compiled
non-reservation rules: a reservation rule leaves `rule_ids` untouched, an
anonymous rule adds nothing, and a successfully compiled named rule ends
up with its identifier present either under its own spelling or through
the previously inserted key equal to its lowercased spelling (the
membership test of line 149). -/
theorem PoodleLex.IR.rule_ids_excludes_pure_reservations :
    (∀ (NFA : Type) (compile : PoodleLex.IR.Pattern → Except String NFA)
       (chain : List (String × PoodleLex.IR.ASTSection))
       (st out : List (PoodleLex.IR.IRRule NFA) × List (String × String))
       (r : PoodleLex.IR.ASTRule),
      PoodleLex.IR.hasReserve r = true →
      PoodleLex.IR.visitRule compile chain st r = .ok out →
      out.2 = st.2) ∧
    (∀ (NFA : Type) (compile : PoodleLex.IR.Pattern → Except String NFA)
       (chain : List (String × PoodleLex.IR.ASTSection))
       (st out : List (PoodleLex.IR.IRRule NFA) × List (String × String))
       (r : PoodleLex.IR.ASTRule),
      PoodleLex.IR.hasReserve r = false → r.id = none →
      PoodleLex.IR.visitRule compile chain st r = .ok out →
      out.2 = st.2) ∧
    (∀ (NFA : Type) (compile : PoodleLex.IR.Pattern → Except String NFA)
       (chain : List (String × PoodleLex.IR.ASTSection))
       (st out : List (PoodleLex.IR.IRRule NFA) × List (String × String))
       (r : PoodleLex.IR.ASTRule) (n : String),
      PoodleLex.IR.hasReserve r = false → r.id = some n →
      PoodleLex.IR.visitRule compile chain st r = .ok out →
      PoodleLex.IR.containsKey out.2 n = true ∨
        PoodleLex.IR.containsKey out.2 (PoodleLex.IR.pyLower n) = true) := by
  refine ⟨?_, ?_, ?_⟩
  · intro NFA compile chain st out r h hout
    rw [PoodleLex.IR.visitRule_reserve compile chain st r h] at hout
    cases hout
    rfl
  · intro NFA compile chain st out r hres hid hout
    cases hc : PoodleLex.IR.compileRule compile chain r with
    | error e =>
      rw [PoodleLex.IR.visitRule_error compile chain st r e hres hc] at hout
      cases hout
    | ok ir =>
      rw [PoodleLex.IR.visitRule_ok compile chain st r ir hres hc] at hout
      cases hout
      simp [updateRuleIds, hid]
  · intro NFA compile chain st out r n hres hid hout
    cases hc : PoodleLex.IR.compileRule compile chain r with
    | error e =>
      rw [PoodleLex.IR.visitRule_error compile chain st r e hres hc] at hout
      cases hout
    | ok ir =>
      rw [PoodleLex.IR.visitRule_ok compile chain st r ir hres hc] at hout
      cases hout
      simp only [updateRuleIds, hid]
      by_cases hk : PoodleLex.IR.containsKey st.2 (PoodleLex.IR.pyLower n) = true
      · right
        simp [hk]
      · left
        rw [Bool.not_eq_true] at hk
        simp only [hk, Bool.false_eq_true, if_false]
        exact PoodleLex.IR.containsKey_dictSet_self st.2 n n

/-- Witness for C8 amended at the concrete rule `WORD`: after visiting it
the identifier `WORD` is a key of `rule_ids`. -/
theorem PoodleLex.IR.rule_ids_excludes_pure_reservations_witness :
    PoodleLex.IR.containsKey [("WORD", "WORD")] "WORD" = true ∨
      PoodleLex.IR.containsKey [("WORD", "WORD")]
        (PoodleLex.IR.pyLower "WORD") = true :=
  PoodleLex.IR.rule_ids_excludes_pure_reservations.2.2 Unit
    PoodleLex.IR.compileU []
    ([], []) ([⟨some "WORD", (), [], none, 9⟩], [("WORD", "WORD")])
    PoodleLex.IR.exNormalRule "WORD" (by decide) rfl rfl

/-- C10: every successful `load` returns a non-empty plug-in dictionary
whose keys include the returned default identifier; `load` fails with the
corresponding error whenever the specification declares an unrecognized
version, no (string) default language, no plug-in dictionary, no valid
plug-in entry, or a default naming a plug-in that was not loaded. -/
theorem PoodleLex.Plugins.load_contract :
    (∀ (fs : String → Bool) (base : String)
       (pf : List (String × PoodleLex.Plugins.JValue))
       (m : List (String × PoodleLex.Plugins.Plugin)) (d : String),
      PoodleLex.Plugins.load fs base pf = .ok (m, d) →
      m ≠ [] ∧ PoodleLex.IR.containsKey m d = true) ∧
    (∀ fs base pf, PoodleLex.Plugins.versionCheck pf = false →
      PoodleLex.Plugins.load fs base pf =
        .error "Language plug-in file version not recognized") ∧
    (∀ fs base pf, PoodleLex.Plugins.versionCheck pf = true →
      PoodleLex.Plugins.defaultNameOf pf = none →
      PoodleLex.Plugins.load fs base pf =
        .error "Default language not specified") ∧
    (∀ fs base pf d, PoodleLex.Plugins.versionCheck pf = true →
      PoodleLex.Plugins.defaultNameOf pf = some d →
      PoodleLex.Plugins.pluginsDictOf pf = none →
      PoodleLex.Plugins.load fs base pf =
        .error "Plugin dictionary not found") ∧
    (∀ fs base pf d entries, PoodleLex.Plugins.versionCheck pf = true →
      PoodleLex.Plugins.defaultNameOf pf = some d →
      PoodleLex.Plugins.pluginsDictOf pf = some entries →
      PoodleLex.Plugins.collectPlugins fs base entries = .ok [] →
      PoodleLex.Plugins.load fs base pf = .error "No plugins found") ∧
    (∀ fs base pf d entries m, PoodleLex.Plugins.versionCheck pf = true →
      PoodleLex.Plugins.defaultNameOf pf = some d →
      PoodleLex.Plugins.pluginsDictOf pf = some entries →
      PoodleLex.Plugins.collectPlugins fs base entries = .ok m →
      m ≠ [] → PoodleLex.IR.containsKey m d = false →
      PoodleLex.Plugins.load fs base pf =
        .error "Default language is invalid") := by
  refine ⟨?_, ?_, ?_, ?_, ?_, ?_⟩
  · intro fs base pf m d h
    unfold load at h
    by_cases hv : PoodleLex.Plugins.versionCheck pf = false
    · rw [if_pos hv] at h; cases h
    · rw [if_neg hv] at h
      cases hd : PoodleLex.Plugins.defaultNameOf pf with
      | none => simp only [hd] at h; cases h
      | some d0 =>
        simp only [hd] at h
        cases hp : PoodleLex.Plugins.pluginsDictOf pf with
        | none => simp only [hp] at h; cases h
        | some entries =>
          simp only [hp] at h
          cases hc : PoodleLex.Plugins.collectPlugins fs base entries with
          | error e => simp only [hc] at h; cases h
          | ok plugs =>
            simp only [hc] at h
            cases plugs with
            | nil => simp [List.isEmpty] at h
            | cons p ps =>
              simp only [List.isEmpty_cons, Bool.false_eq_true, if_false] at h
              by_cases hk : PoodleLex.IR.containsKey (p :: ps) d0 = true
              · rw [if_pos hk] at h
                cases h
                exact ⟨by simp, hk⟩
              · rw [if_neg hk] at h
                cases h
  · intro fs base pf hv
    unfold load
    rw [if_pos hv]
  · intro fs base pf hv hd
    unfold load
    rw [if_neg (by simp [hv])]
    simp only [hd]
  · intro fs base pf d hv hd hp
    unfold load
    rw [if_neg (by simp [hv])]
    simp only [hd, hp]
  · intro fs base pf d entries hv hd hp hc
    unfold load
    rw [if_neg (by simp [hv])]
    simp only [hd, hp, hc, List.isEmpty_nil, if_true]
  · intro fs base pf d entries m hv hd hp hc hne hk
    unfold load
    rw [if_neg (by simp [hv])]
    cases m with
    | nil => exact absurd rfl hne
    | cons p ps =>
      simp only [hd, hp, hc, List.isEmpty_cons, Bool.false_eq_true, if_false]
      rw [if_neg (by simp [hk])]

/-- Witness for C10 at a concrete well-formed specification file: the
returned dictionary holds the one valid plug-in and the default names
it. -/
theorem PoodleLex.Plugins.load_contract_witness :
    ([("c", (⟨"/plug/c.py", "/plug/files", [], ""⟩ :
        PoodleLex.Plugins.Plugin))] ≠ []) ∧
      PoodleLex.IR.containsKey
        [("c", (⟨"/plug/c.py", "/plug/files", [], ""⟩ :
          PoodleLex.Plugins.Plugin))] "c" = true :=
  PoodleLex.Plugins.load_contract.1 PoodleLex.Plugins.fsAll "/base"
    PoodleLex.Plugins.exPluginFile
    [("c", ⟨"/plug/c.py", "/plug/files", [], ""⟩)] "c" rfl
